import Mathlib

/-!
Shallow embedding of the integration dashboard component of the kronos-chat
backend (`server/app/services/integration_service.py` and
`server/app/schemas/integration.py`), together with proofs of the stated
properties of that component.

Modelling conventions:
* Python strings are Lean `String`s; `str.lower()` / `str.title()` are modelled
  on the character list (`pyLower` / `pyTitle`), which agrees with Python on
  the ASCII data these functions are applied to.
* Python's stable sorts (`list.sort` / `sorted`, both stable by language
  guarantee) are modelled by `List.insertionSort` with the non-strict key
  preorder; a stable sort with a total preorder is uniquely determined, so
  this coincides with Python's output.
* The float comparison `error_count / total_count > 0.5` is modelled exactly
  as the rational inequality `2 * error_count > total_count`.
* Vendor (Composio) calls are inputs: each fallible call is an `Except Unit`
  value carried by a `Vendor` record, and the `try/except` fallbacks of the
  source are explicit `match`es on those values.
* `datetime` fields (`created_at`, `last_used`, `last_updated`) are omitted:
  no verified property mentions them, and real time is outside the embedding.
-/

namespace Kronos

/-- Model of Python `str.lower()` (ASCII case folding, charwise). -/
def pyLower (s : String) : String := ⟨s.data.map Char.toLower⟩

/-- Model of Python `str.title()`: an alphabetic character is uppercased when
the previous character is not alphabetic, lowercased otherwise. -/
def pyTitle (s : String) : String :=
  (s.data.foldl
    (fun (acc : List Char × Bool) c =>
      if c.isAlpha then (acc.1 ++ [if acc.2 then c.toLower else c.toUpper], true)
      else (acc.1 ++ [c], false))
    ([], false)).1.asString

/-- Lexicographic (code-point) comparison of character lists, the order Python
uses to compare strings. -/
def charListLe : List Char → List Char → Bool
  | [], _ => true
  | _ :: _, [] => false
  | a :: as, b :: bs => if a = b then charListLe as bs else decide (a < b)

/-- Python string comparison `a <= b`. -/
def strLe (a b : String) : Bool := charListLe a.data b.data

/-- Model of Python `str.replace(' ', '_')` (single-character pattern, so a
charwise map). -/
def replaceSpaces (s : String) : String :=
  ⟨s.data.map (fun c => if c = ' ' then '_' else c)⟩

/-- Status enumeration of `schemas/integration.py` (`IntegrationStatus`). -/
inductive IntegrationStatus where
  | active
  | inactive
  | pending
  | error
  | disabled
  deriving DecidableEq, Repr

/-- Health enumeration of `schemas/integration.py` (`ConnectionHealth`). -/
inductive ConnectionHealth where
  | healthy
  | warning
  | error
  | unknown
  deriving DecidableEq, Repr

/-- One connection within an integration (`IntegrationConnection`). -/
structure IntegrationConnection where
  account_id : String
  status : IntegrationStatus
  error_message : Option String := none
  deriving DecidableEq, Repr

/-- A raw connected-account record as returned by the vendor:
`{account_id, status, provider, error}` with string fields defaulting to `""`
for missing keys (the source reads them with `.get(key, '')`). -/
structure ConnRecord where
  account_id : String := ""
  provider : String := ""
  status : String := ""
  error : Option String := none
  deriving DecidableEq, Repr

/-- A raw toolkit record as returned by the vendor:
`{slug, description, logo, categories, auth_schemes}`. -/
structure Toolkit where
  slug : String := ""
  description : String := ""
  logo : String := ""
  categories : List String := []
  auth_schemes : List String := []
  deriving DecidableEq, Repr

/-- Summary of one integration service (`IntegrationSummary`). -/
structure IntegrationSummary where
  provider : String
  display_name : String
  description : String := ""
  logo_url : String := ""
  categories : List String := []
  total_connections : Nat := 0
  active_connections : Nat := 0
  inactive_connections : Nat := 0
  error_connections : Nat := 0
  health : ConnectionHealth := ConnectionHealth.unknown
  health_message : String := ""
  auth_schemes : List String := []
  available_actions : Nat := 0
  connections : List IntegrationConnection := []
  deriving DecidableEq, Repr

/-- The per-user dashboard aggregate (`IntegrationDashboard`). -/
structure IntegrationDashboard where
  user_id : String
  total_integrations : Nat := 0
  connected_integrations : Nat := 0
  total_connections : Nat := 0
  healthy_connections : Nat := 0
  categories : List String := []
  popular_integrations : List String := []
  integrations : List IntegrationSummary := []
  composio_health : Bool := false
  deriving DecidableEq, Repr

/-- One category rollup of the stats view (`IntegrationCategory`). -/
structure IntegrationCategory where
  name : String
  display_name : String
  service_count : Nat := 0
  connected_count : Nat := 0
  services : List String := []
  deriving DecidableEq, Repr

/-- The stats/analytics view (`IntegrationStats`). -/
structure IntegrationStats where
  total_available : Nat := 0
  total_connected : Nat := 0
  total_connections : Nat := 0
  active_connections : Nat := 0
  failed_connections : Nat := 0
  categories : List IntegrationCategory := []
  deriving DecidableEq, Repr

/-- `IntegrationService._parse_connection_status`. -/
def parseConnectionStatus (status : String) : IntegrationStatus :=
  let status_lower := pyLower status
  if status_lower ∈ ["active", "enabled", "connected"] then IntegrationStatus.active
  else if status_lower ∈ ["inactive", "disabled", "disconnected"] then IntegrationStatus.inactive
  else if status_lower ∈ ["pending", "initiated"] then IntegrationStatus.pending
  else if status_lower ∈ ["error", "failed"] then IntegrationStatus.error
  else IntegrationStatus.inactive

/-- `IntegrationService._get_health_status`. The source's
`error_ratio = error_count / total_count` and test `error_ratio > 0.5` are
modelled exactly by `2 * error_count > total_count`. -/
def getHealthStatus (connections : List IntegrationConnection) : ConnectionHealth :=
  if connections.isEmpty then ConnectionHealth.unknown
  else
    let active_count := connections.countP (fun c => c.status == IntegrationStatus.active)
    let error_count := connections.countP (fun c => c.status == IntegrationStatus.error)
    let total_count := connections.length
    if error_count > 0 then
      if 2 * error_count > total_count then ConnectionHealth.error
      else ConnectionHealth.warning
    else if active_count > 0 then ConnectionHealth.healthy
    else ConnectionHealth.warning

/-- `IntegrationService._get_health_message`. -/
def getHealthMessage (health : ConnectionHealth) (connections : List IntegrationConnection) : String :=
  let total := connections.length
  let active := connections.countP (fun c => c.status == IntegrationStatus.active)
  let errors := connections.countP (fun c => c.status == IntegrationStatus.error)
  if health = ConnectionHealth.healthy then s!"All {active} connections are healthy"
  else if health = ConnectionHealth.warning then
    if active = 0 then s!"No active connections out of {total}"
    else s!"{active} active, {errors} with issues"
  else if health = ConnectionHealth.error then s!"{errors} connections have errors"
  else "No connections established"

/-- The `name_mapping` dict literal of `_normalize_provider_name`. -/
def nameMapping (key : String) : Option String :=
  match key with
  | "gmail" => some "Gmail"
  | "googlesheets" => some "Google Sheets"
  | "googledrive" => some "Google Drive"
  | "googlecalendar" => some "Google Calendar"
  | "slack" => some "Slack"
  | "discord" => some "Discord"
  | "github" => some "GitHub"
  | "gitlab" => some "GitLab"
  | "trello" => some "Trello"
  | "asana" => some "Asana"
  | "notion" => some "Notion"
  | "hubspot" => some "HubSpot"
  | "salesforce" => some "Salesforce"
  | "zendesk" => some "Zendesk"
  | "intercom" => some "Intercom"
  | "stripe" => some "Stripe"
  | "paypal" => some "PayPal"
  | "dropbox" => some "Dropbox"
  | "onedrive" => some "OneDrive"
  | "zoom" => some "Zoom"
  | "teams" => some "Microsoft Teams"
  | "linear" => some "Linear"
  | "figma" => some "Figma"
  | "airtable" => some "Airtable"
  | _ => none

/-- `IntegrationService._normalize_provider_name`:
`name_mapping.get(provider.lower(), provider.title())`. -/
def normalizeProviderName (provider : String) : String :=
  (nameMapping (pyLower provider)).getD (pyTitle provider)

/-- The `category_mapping` dict literal of `_categorize_service`. -/
def categoryMapping (key : String) : Option (List String) :=
  match key with
  | "slack" => some ["Communication", "Team Collaboration"]
  | "discord" => some ["Communication", "Gaming"]
  | "teams" => some ["Communication", "Microsoft", "Video Conferencing"]
  | "zoom" => some ["Communication", "Video Conferencing"]
  | "gmail" => some ["Email", "Google", "Communication"]
  | "outlook" => some ["Email", "Microsoft", "Communication"]
  | "notion" => some ["Productivity", "Note Taking", "Collaboration"]
  | "airtable" => some ["Productivity", "Database", "Collaboration"]
  | "trello" => some ["Productivity", "Project Management"]
  | "asana" => some ["Productivity", "Project Management"]
  | "linear" => some ["Productivity", "Project Management", "Development"]
  | "github" => some ["Development", "Version Control", "Code"]
  | "gitlab" => some ["Development", "Version Control", "Code"]
  | "figma" => some ["Development", "Design", "Collaboration"]
  | "googlesheets" => some ["Google", "Spreadsheet", "Productivity"]
  | "googledrive" => some ["Google", "Storage", "File Management"]
  | "googlecalendar" => some ["Google", "Calendar", "Scheduling"]
  | "hubspot" => some ["CRM", "Sales", "Marketing"]
  | "salesforce" => some ["CRM", "Sales", "Enterprise"]
  | "zendesk" => some ["Support", "Customer Service"]
  | "intercom" => some ["Support", "Customer Service", "Communication"]
  | "stripe" => some ["Payment", "Financial", "E-commerce"]
  | "paypal" => some ["Payment", "Financial", "E-commerce"]
  | "dropbox" => some ["Storage", "File Management"]
  | "onedrive" => some ["Storage", "File Management", "Microsoft"]
  | _ => none

/-- `IntegrationService._categorize_service`. -/
def categorizeService (provider : String) (categories : List String) : List String :=
  if categories ≠ [] then categories
  else (categoryMapping (pyLower provider)).getD ["Other"]

/-- The `connections_by_provider` defaultdict: an association list from
lowercased provider to the connections appended under that key, in order. -/
abbrev GroupDict := List (String × List ConnRecord)

/-- Appending one record under a key, as `defaultdict(list)[key].append(conn)`
does: extend the existing entry in place, or add a new entry at the end. -/
def insertGrouped : GroupDict → String → ConnRecord → GroupDict
  | [], key, c => [(key, [c])]
  | (k, l) :: rest, key, c =>
    if k = key then (k, l ++ [c]) :: rest
    else (k, l) :: insertGrouped rest key c

/-- The grouping loop of `get_integration_dashboard` (lines 174-177):
`for conn in connections: connections_by_provider[conn.get('provider', '').lower()].append(conn)`. -/
def groupConnections (connections : List ConnRecord) : GroupDict :=
  connections.foldl (fun m conn => insertGrouped m (pyLower conn.provider) conn) []

/-- Dict lookup with default `[]`, as `connections_by_provider.get(key, [])`. -/
def dictGet (m : GroupDict) (key : String) : List ConnRecord :=
  match m.find? (fun p => p.1 == key) with
  | some p => p.2
  | none => []

/-- The behaviour of the Composio connector as seen by one dashboard request:
the `initialized` flag and the outcome of each vendor call.  An `Except.error`
value models the call raising. -/
structure Vendor where
  initialized : Bool
  toolkitsResult : Except Unit (List Toolkit) := Except.ok []
  connectionsResult : Except Unit (List ConnRecord) := Except.ok []
  actionsResult : String → Except Unit (List String) := fun _ => Except.ok []

/-- The `available_actions` computation of `get_integration_dashboard`
(lines 217-221): `len(actions)` on success, 0 when the call raises. -/
def availableActionsCount (vendor : Vendor) (provider : String) : Nat :=
  match vendor.actionsResult provider with
  | Except.ok actions => actions.length
  | Except.error _ => 0

/-- The per-provider conversion loop of `get_integration_dashboard`
(lines 192-200): raw records to `IntegrationConnection` values. -/
def buildIntegrationConnections (provider_connections : List ConnRecord) : List IntegrationConnection :=
  provider_connections.map (fun conn =>
    let status := parseConnectionStatus conn.status
    { account_id := conn.account_id
      status := status
      error_message := if status = IntegrationStatus.error then conn.error else none })

/-- The body of the toolkit loop of `get_integration_dashboard`
(lines 183-241): the `IntegrationSummary` built for one toolkit. -/
def buildIntegrationSummary (vendor : Vendor) (connections_by_provider : GroupDict)
    (toolkit : Toolkit) : IntegrationSummary :=
  let provider := toolkit.slug
  let provider_connections := dictGet connections_by_provider (pyLower provider)
  let integration_connections := buildIntegrationConnections provider_connections
  let total_conns := integration_connections.length
  let active_conns := integration_connections.countP (fun c => c.status == IntegrationStatus.active)
  let inactive_conns := integration_connections.countP (fun c => c.status == IntegrationStatus.inactive)
  let error_conns := integration_connections.countP (fun c => c.status == IntegrationStatus.error)
  let health := getHealthStatus integration_connections
  let health_message := getHealthMessage health integration_connections
  let categories := categorizeService provider toolkit.categories
  let available_actions := availableActionsCount vendor provider
  { provider := provider
    display_name := normalizeProviderName provider
    description := toolkit.description
    logo_url := toolkit.logo
    categories := categories
    total_connections := total_conns
    active_connections := active_conns
    inactive_connections := inactive_conns
    error_connections := error_conns
    health := health
    health_message := health_message
    auth_schemes := toolkit.auth_schemes
    available_actions := available_actions
    connections := integration_connections }

/-- The sort key of `integrations.sort(key=lambda x: (-x.total_connections,
x.display_name))`, as a non-strict preorder: the stable sort with this
preorder is exactly Python's stable ascending sort by that key. -/
def summaryKeyLE (a b : IntegrationSummary) : Prop :=
  b.total_connections < a.total_connections ∨
    (a.total_connections = b.total_connections ∧ strLe a.display_name b.display_name = true)

instance : DecidableRel summaryKeyLE := fun a b => by
  unfold summaryKeyLE
  infer_instance

/-- The key of `sorted(..., key=lambda x: x.total_connections, reverse=True)`
as a non-strict preorder (stable descending sort by total connections). -/
def totalDescLE (a b : IntegrationSummary) : Prop :=
  b.total_connections ≤ a.total_connections

instance : DecidableRel totalDescLE := fun a b => by
  unfold totalDescLE
  infer_instance

/-- Python string order as a `Prop` relation, for `sorted(list(set(...)))`. -/
def stringLE (a b : String) : Prop := strLe a b = true

instance : DecidableRel stringLE := fun a b => by
  unfold stringLE
  infer_instance

/-- `IntegrationService.get_integration_dashboard`, as a function of the user
id and the vendor behaviour for this request. -/
def getIntegrationDashboard (user_id : String) (vendor : Vendor) : IntegrationDashboard :=
  if !vendor.initialized then
    { user_id := user_id
      composio_health := false
      integrations := [] }
  else
    let toolkits := match vendor.toolkitsResult with
      | Except.ok ts => ts
      | Except.error _ => []
    let connections := match vendor.connectionsResult with
      | Except.ok cs => cs
      | Except.error _ => []
    let connections_by_provider := groupConnections connections
    let integrations0 := toolkits.filterMap (fun toolkit =>
      if toolkit.slug = "" then none
      else some (buildIntegrationSummary vendor connections_by_provider toolkit))
    let all_categories := (integrations0.flatMap (fun i => i.categories)).dedup
    let integrations := List.insertionSort summaryKeyLE integrations0
    let total_integrations := integrations.length
    let connected_integrations := integrations.countP (fun i => decide (0 < i.total_connections))
    let total_connections := (integrations.map (fun i => i.total_connections)).sum
    let healthy_connections := (integrations.map (fun i => i.active_connections)).sum
    let popular :=
      (List.insertionSort totalDescLE
        (integrations.filter (fun i => decide (0 < i.total_connections)))).take 5
    let popular_integrations := popular.map (fun i => i.provider)
    { user_id := user_id
      total_integrations := total_integrations
      connected_integrations := connected_integrations
      total_connections := total_connections
      healthy_connections := healthy_connections
      categories := List.insertionSort stringLE all_categories
      popular_integrations := popular_integrations
      integrations := integrations
      composio_health := true }

/-- One value of the `category_stats` defaultdict: the `services` set (as an
insertion-ordered duplicate-free list) and the `connected` counter. -/
structure CatStat where
  services : List String
  connected : Nat
  deriving DecidableEq, Repr

/-- The `category_stats` defaultdict as an association list in insertion
order. -/
abbrev CatDict := List (String × CatStat)

/-- Adding to a Python set: append unless already present. -/
def insertUnique (l : List String) (a : String) : List String :=
  if a ∈ l then l else l ++ [a]

/-- One iteration of the inner loop of `get_integration_stats` (lines 288-292):
`category_stats[category]['services'].add(provider)` and, when the integration
has a connection, `category_stats[category]['connected'] += 1`. -/
def upsertCat : CatDict → String → String → Bool → CatDict
  | [], category, provider, isConnected =>
    [(category, { services := [provider], connected := if isConnected then 1 else 0 })]
  | (k, st) :: rest, category, provider, isConnected =>
    if k = category then
      (k, { services := insertUnique st.services provider
            connected := st.connected + (if isConnected then 1 else 0) }) :: rest
    else (k, st) :: upsertCat rest category provider isConnected

/-- The inner `for category in integration.categories` loop for one
integration. -/
def catStep (m : CatDict) (i : IntegrationSummary) : CatDict :=
  i.categories.foldl
    (fun m2 category => upsertCat m2 category i.provider (decide (0 < i.total_connections))) m

/-- The grouping loop of `get_integration_stats` (lines 286-292). -/
def buildCategoryStats (integrations : List IntegrationSummary) : CatDict :=
  integrations.foldl catStep []

/-- The key of `categories.sort(key=lambda x: x.connected_count, reverse=True)`
as a non-strict preorder. -/
def connectedDescLE (a b : IntegrationCategory) : Prop :=
  b.connected_count ≤ a.connected_count

instance : DecidableRel connectedDescLE := fun a b => by
  unfold connectedDescLE
  infer_instance

/-- The second half of `get_integration_stats` (lines 294-314): build the
`IntegrationCategory` objects from the grouped stats, sort them by descending
connected count, and assemble `IntegrationStats` from the dashboard totals. -/
def statsFromDashboard (dashboard : IntegrationDashboard) : IntegrationStats :=
  let category_stats := buildCategoryStats dashboard.integrations
  let categories0 := category_stats.map (fun p =>
    ({ name := replaceSpaces (pyLower p.1)
       display_name := p.1
       service_count := p.2.services.length
       connected_count := p.2.connected
       services := p.2.services } : IntegrationCategory))
  let categories := List.insertionSort connectedDescLE categories0
  { total_available := dashboard.total_integrations
    total_connected := dashboard.connected_integrations
    total_connections := dashboard.total_connections
    active_connections := dashboard.healthy_connections
    failed_connections := (dashboard.integrations.map (fun i => i.error_connections)).sum
    categories := categories }

/-- `IntegrationService.get_integration_stats`: builds the dashboard, then
derives the stats from it alone. -/
def getIntegrationStats (user_id : String) (vendor : Vendor) : IntegrationStats :=
  statsFromDashboard (getIntegrationDashboard user_id vendor)

/-- Lookup in the `category_stats` dict. -/
def catLookup (m : CatDict) (key : String) : Option CatStat :=
  match m.find? (fun p => p.1 == key) with
  | some p => some p.2
  | none => none

/-- Flattening of the nested `for integration / for category` loops of
`get_integration_stats` into the traversed `(category, provider, connected)`
triples, for reasoning about `buildCategoryStats`. -/
def catPairs (integrations : List IntegrationSummary) : List (String × String × Bool) :=
  integrations.flatMap (fun i =>
    i.categories.map (fun category => (category, i.provider, decide (0 < i.total_connections))))

/-- The `connected` counter accumulated for one key over a pair list. -/
def pairsConnected (pairs : List (String × String × Bool)) (key : String) : Nat :=
  (pairs.filter (fun p => p.1 == key)).countP (fun p => p.2.2)

/-- The `services` set accumulated for one key over a pair list, starting from
`acc`. -/
def pairsServices (acc : List String) (pairs : List (String × String × Bool)) (key : String) : List String :=
  ((pairs.filter (fun p => p.1 == key)).map (fun p => p.2.1)).foldl insertUnique acc

/-- Components of an optional `CatStat`, with the defaultdict's zero value for
a missing key. -/
def optServices (o : Option CatStat) : List String :=
  match o with
  | some st => st.services
  | none => []

/-- Connected counter of an optional `CatStat`. -/
def optConnected (o : Option CatStat) : Nat :=
  match o with
  | some st => st.connected
  | none => 0

/-- Concrete vendor with the connector not initialized (witness input). -/
def vendorDown : Vendor := { initialized := false }

/-- Concrete vendor whose single connection has a vendor status of `pending`:
one slack toolkit, one pending slack connection. -/
def vendorPending : Vendor :=
  { initialized := true
    toolkitsResult := Except.ok [{ slug := "slack" }]
    connectionsResult := Except.ok
      [{ account_id := "a1", provider := "slack", status := "pending" }] }

/-- Concrete vendor whose single toolkit lists the same category twice: one
toolkit with categories `["X", "X"]` and one active connection. -/
def vendorDupCat : Vendor :=
  { initialized := true
    toolkitsResult := Except.ok [{ slug := "svc1", categories := ["X", "X"] }]
    connectionsResult := Except.ok
      [{ account_id := "a1", provider := "svc1", status := "active" }] }

/-- The first integration summary of the dashboard built from `vendorPending`
(fallback value unused: that dashboard has one integration). -/
def pendingSummary : IntegrationSummary :=
  match (getIntegrationDashboard "u1" vendorPending).integrations with
  | s :: _ => s
  | [] => { provider := "", display_name := "" }

/-- A concrete one-element connection list (witness input). -/
def sampleConns : List ConnRecord :=
  [{ account_id := "a1", provider := "Slack", status := "active" }]

/-! Helper lemmas about the string order used by the sort keys. -/

theorem charListLe_total : ∀ as bs : List Char, charListLe as bs = true ∨ charListLe bs as = true
  | [], _ => Or.inl rfl
  | _ :: _, [] => Or.inr rfl
  | a :: as, b :: bs => by
    by_cases hab : a = b
    · subst hab
      simpa [charListLe] using charListLe_total as bs
    · rcases lt_or_gt_of_ne hab with h | h
      · exact Or.inl (by simp [charListLe, hab, h])
      · exact Or.inr (by simp [charListLe, Ne.symm hab, h])

theorem charListLe_trans : ∀ as bs cs : List Char,
    charListLe as bs = true → charListLe bs cs = true → charListLe as cs = true
  | [], _, _, _, _ => rfl
  | _ :: _, [], _, h1, _ => by simp [charListLe] at h1
  | _ :: _, _ :: _, [], _, h2 => by simp [charListLe] at h2
  | a :: as, b :: bs, c :: cs, h1, h2 => by
    simp only [charListLe] at h1 h2 ⊢
    by_cases hab : a = b
    · subst hab
      simp only [if_pos rfl] at h1
      by_cases hac : a = c
      · subst hac
        simp only [if_pos rfl] at h2 ⊢
        exact charListLe_trans as bs cs h1 h2
      · simpa [hac] using h2
    · simp only [if_neg hab, decide_eq_true_eq] at h1
      by_cases hbc : b = c
      · subst hbc
        simp [hab, h1]
      · simp only [if_neg hbc, decide_eq_true_eq] at h2
        have hac : a < c := lt_trans h1 h2
        simp [ne_of_lt hac, hac]

theorem strLe_total (a b : String) : strLe a b = true ∨ strLe b a = true :=
  charListLe_total a.data b.data

theorem strLe_trans {a b c : String} (h1 : strLe a b = true) (h2 : strLe b c = true) :
    strLe a c = true :=
  charListLe_trans a.data b.data c.data h1 h2

theorem charListLe_iff_not_lt : ∀ as bs : List Char, charListLe as bs = true ↔ ¬ bs < as
  | [], bs => by
    simp only [charListLe]
    constructor
    · intro _ h
      cases h
    · intro _
      trivial
  | a :: as, [] => by
    simp only [charListLe]
    constructor
    · intro h
      simp at h
    · intro h
      exact absurd List.Lex.nil h
  | a :: as, b :: bs => by
    simp only [charListLe]
    by_cases hab : a = b
    · subst hab
      rw [if_pos rfl, charListLe_iff_not_lt as bs]
      constructor
      · intro h hlt
        cases hlt with
        | cons h3 => exact h h3
        | rel h1 => exact lt_irrefl a h1
      · intro h hlt
        exact h (List.Lex.cons hlt)
    · rw [if_neg hab]
      rcases lt_trichotomy a b with h | h | h
      · constructor
        · intro _ hlt
          cases hlt with
          | cons h3 => exact hab rfl
          | rel h1 => exact lt_asymm h h1
        · intro _
          exact decide_eq_true h
      · exact absurd h hab
      · constructor
        · intro hd
          exact absurd (of_decide_eq_true hd) (asymm h)
        · intro hn
          exact absurd (List.Lex.rel h) hn

/-- The boolean comparator `strLe` is the standard string order. -/
theorem strLe_iff_le (a b : String) : strLe a b = true ↔ a ≤ b := by
  rw [String.le_iff_toList_le, ← not_lt]
  exact charListLe_iff_not_lt a.data b.data

theorem summaryKeyLE_total (a b : IntegrationSummary) : summaryKeyLE a b ∨ summaryKeyLE b a := by
  unfold summaryKeyLE
  rcases Nat.lt_trichotomy a.total_connections b.total_connections with h | h | h
  · exact Or.inr (Or.inl h)
  · rcases strLe_total a.display_name b.display_name with hs | hs
    · exact Or.inl (Or.inr ⟨h, hs⟩)
    · exact Or.inr (Or.inr ⟨h.symm, hs⟩)
  · exact Or.inl (Or.inl h)

theorem summaryKeyLE_trans {a b c : IntegrationSummary} :
    summaryKeyLE a b → summaryKeyLE b c → summaryKeyLE a c := by
  unfold summaryKeyLE
  rintro (h1 | ⟨h1e, h1s⟩) (h2 | ⟨h2e, h2s⟩)
  · exact Or.inl (lt_trans h2 h1)
  · exact Or.inl (by omega)
  · exact Or.inl (by omega)
  · exact Or.inr ⟨h1e.trans h2e, strLe_trans h1s h2s⟩

theorem summaryKeyLE_imp_totalDescLE {a b : IntegrationSummary} :
    summaryKeyLE a b → totalDescLE a b := by
  rintro (h | ⟨h, _⟩)
  · exact le_of_lt h
  · exact le_of_eq h.symm

/-! Helper lemmas about status parsing and counting. -/

theorem parseConnectionStatus_ne_disabled (s : String) :
    parseConnectionStatus s ≠ IntegrationStatus.disabled := by
  show (if pyLower s ∈ ["active", "enabled", "connected"] then IntegrationStatus.active
    else if pyLower s ∈ ["inactive", "disabled", "disconnected"] then IntegrationStatus.inactive
    else if pyLower s ∈ ["pending", "initiated"] then IntegrationStatus.pending
    else if pyLower s ∈ ["error", "failed"] then IntegrationStatus.error
    else IntegrationStatus.inactive) ≠ IntegrationStatus.disabled
  split_ifs <;> decide

theorem length_eq_status_counts (l : List IntegrationConnection)
    (h : ∀ c ∈ l, c.status ≠ IntegrationStatus.disabled) :
    l.length =
      l.countP (fun c => c.status == IntegrationStatus.active) +
        l.countP (fun c => c.status == IntegrationStatus.inactive) +
        l.countP (fun c => c.status == IntegrationStatus.error) +
        l.countP (fun c => c.status == IntegrationStatus.pending) := by
  induction l with
  | nil => simp
  | cons c l ih =>
    have hc : c.status ≠ IntegrationStatus.disabled := h c (List.mem_cons_self c l)
    have ih2 := ih (fun x hx => h x (List.mem_cons_of_mem c hx))
    simp only [List.countP_cons, List.length_cons]
    cases hst : c.status <;> simp_all <;> omega

/-! The settled claims. -/

/-- C6: `_parse_connection_status` maps, case-insensitively, the listed vendor
strings to the corresponding status, any other string (including the empty
string) to `inactive`, and never returns any other status. -/
theorem parse_connection_status_spec (s : String) :
    (pyLower s ∈ ["active", "enabled", "connected"] →
      parseConnectionStatus s = IntegrationStatus.active) ∧
    (pyLower s ∈ ["inactive", "disabled", "disconnected"] →
      parseConnectionStatus s = IntegrationStatus.inactive) ∧
    (pyLower s ∈ ["pending", "initiated"] →
      parseConnectionStatus s = IntegrationStatus.pending) ∧
    (pyLower s ∈ ["error", "failed"] →
      parseConnectionStatus s = IntegrationStatus.error) ∧
    (pyLower s ∉ ["active", "enabled", "connected", "inactive", "disabled", "disconnected",
      "pending", "initiated", "error", "failed"] →
      parseConnectionStatus s = IntegrationStatus.inactive) ∧
    parseConnectionStatus s ≠ IntegrationStatus.disabled := by
  unfold parseConnectionStatus
  generalize pyLower s = q
  refine ⟨?_, ?_, ?_, ?_, ?_, ?_⟩
  · intro h; fin_cases h <;> rfl
  · intro h; fin_cases h <;> rfl
  · intro h; fin_cases h <;> rfl
  · intro h; fin_cases h <;> rfl
  · intro h
    have hA : q ∉ ["active", "enabled", "connected"] :=
      fun hm => h (by fin_cases hm <;> decide)
    have hB : q ∉ ["inactive", "disabled", "disconnected"] :=
      fun hm => h (by fin_cases hm <;> decide)
    have hC : q ∉ ["pending", "initiated"] :=
      fun hm => h (by fin_cases hm <;> decide)
    have hD : q ∉ ["error", "failed"] :=
      fun hm => h (by fin_cases hm <;> decide)
    show (if q ∈ ["active", "enabled", "connected"] then IntegrationStatus.active
      else if q ∈ ["inactive", "disabled", "disconnected"] then IntegrationStatus.inactive
      else if q ∈ ["pending", "initiated"] then IntegrationStatus.pending
      else if q ∈ ["error", "failed"] then IntegrationStatus.error
      else IntegrationStatus.inactive) = IntegrationStatus.inactive
    rw [if_neg hA, if_neg hB, if_neg hC, if_neg hD]
  · show (if q ∈ ["active", "enabled", "connected"] then IntegrationStatus.active
      else if q ∈ ["inactive", "disabled", "disconnected"] then IntegrationStatus.inactive
      else if q ∈ ["pending", "initiated"] then IntegrationStatus.pending
      else if q ∈ ["error", "failed"] then IntegrationStatus.error
      else IntegrationStatus.inactive) ≠ IntegrationStatus.disabled
    split_ifs <;> decide

/-- C7: `_categorize_service` returns the vendor categories verbatim when they
are non-empty; otherwise it returns the static table entry for the case-folded
slug, and `["Other"]` when the slug is absent from the table; in particular,
`"slack"` with no vendor categories resolves to
`["Communication", "Team Collaboration"]`. -/
theorem categorize_service_spec (provider : String) (categories : List String) :
    (categories ≠ [] → categorizeService provider categories = categories) ∧
    (∀ cats, categories = [] → categoryMapping (pyLower provider) = some cats →
      categorizeService provider categories = cats) ∧
    (categories = [] → categoryMapping (pyLower provider) = none →
      categorizeService provider categories = ["Other"]) ∧
    categorizeService "slack" [] = ["Communication", "Team Collaboration"] ∧
    categorizeService "unknownservice123" [] = ["Other"] := by
  refine ⟨?_, ?_, ?_, by decide, by decide⟩
  · intro h
    simp [categorizeService, h]
  · intro cats hc hm
    subst hc
    simp [categorizeService, hm]
  · intro hc hm
    subst hc
    simp [categorizeService, hm]

/-- C2: `_get_health_status` returns `unknown` on an empty list; with a
non-empty list it returns `error` when there are error connections and the
error ratio exceeds one half, `warning` when there are error connections and
the ratio is at most one half, `healthy` when there are no errors and at
least one active connection, and `warning` when there are neither errors nor
active connections. -/
theorem health_status_spec (connections : List IntegrationConnection) :
    (connections = [] → getHealthStatus connections = ConnectionHealth.unknown) ∧
    (connections ≠ [] →
      (0 < connections.countP (fun c => c.status == IntegrationStatus.error) →
        (((connections.countP (fun c => c.status == IntegrationStatus.error) : ℚ) /
            (connections.length : ℚ) > 1 / 2 →
          getHealthStatus connections = ConnectionHealth.error) ∧
        ((connections.countP (fun c => c.status == IntegrationStatus.error) : ℚ) /
            (connections.length : ℚ) ≤ 1 / 2 →
          getHealthStatus connections = ConnectionHealth.warning))) ∧
      (connections.countP (fun c => c.status == IntegrationStatus.error) = 0 →
        ((0 < connections.countP (fun c => c.status == IntegrationStatus.active) →
          getHealthStatus connections = ConnectionHealth.healthy) ∧
        (connections.countP (fun c => c.status == IntegrationStatus.active) = 0 →
          getHealthStatus connections = ConnectionHealth.warning)))) := by
  constructor
  · intro h
    subst h
    rfl
  · intro hne
    have ht : 0 < connections.length := List.length_pos.mpr hne
    have hEmpty : connections.isEmpty = false := by
      simp [List.isEmpty_iff, hne]
    have hratio : ∀ e : Nat,
        ((e : ℚ) / (connections.length : ℚ) > 1 / 2 ↔ connections.length < 2 * e) := by
      intro e
      rw [gt_iff_lt, div_lt_div_iff₀ (by norm_num) (by exact_mod_cast ht), one_mul]
      rw [show ((e : ℚ)) * 2 = ((2 * e : Nat) : ℚ) by push_cast; ring]
      exact_mod_cast Iff.rfl
    constructor
    · intro he
      constructor
      · intro hr
        rw [hratio] at hr
        simp [getHealthStatus, hEmpty, he, hr]
      · intro hr
        have hnot : ¬ (connections.length <
            2 * connections.countP (fun c => c.status == IntegrationStatus.error)) := by
          rw [← hratio]
          exact not_lt.mpr hr
        simp [getHealthStatus, hEmpty, he, hnot]
    · intro he
      constructor
      · intro ha
        simp [getHealthStatus, hEmpty, he, ha]
      · intro ha
        simp [getHealthStatus, hEmpty, he, ha]

/-- C8: `_get_health_message`, applied to the verdict that
`_get_health_status` computes for the same connection list, renders exactly
the documented message for each branch, with the zero-active warning case
distinguished. -/
theorem health_message_spec (connections : List IntegrationConnection) :
    let total := connections.length
    let active := connections.countP (fun c => c.status == IntegrationStatus.active)
    let errors := connections.countP (fun c => c.status == IntegrationStatus.error)
    let health := getHealthStatus connections
    (health = ConnectionHealth.healthy →
      getHealthMessage health connections = s!"All {active} connections are healthy") ∧
    (health = ConnectionHealth.warning → active = 0 →
      getHealthMessage health connections = s!"No active connections out of {total}") ∧
    (health = ConnectionHealth.warning → 0 < active →
      getHealthMessage health connections = s!"{active} active, {errors} with issues") ∧
    (health = ConnectionHealth.error →
      getHealthMessage health connections = s!"{errors} connections have errors") ∧
    (health = ConnectionHealth.unknown →
      getHealthMessage health connections = "No connections established") := by
  dsimp only
  refine ⟨?_, ?_, ?_, ?_, ?_⟩
  · intro h
    simp [getHealthMessage, h]
  · intro h ha
    simp [getHealthMessage, h, ha]
  · intro h ha
    simp [getHealthMessage, h, ha.ne']
  · intro h
    simp [getHealthMessage, h]
  · intro h
    simp [getHealthMessage, h]

/-- C4: when the connector is not initialized, `get_integration_dashboard`
returns the dashboard with the given user id, `composio_health = false`, an
empty integration list, and every aggregate field at its zero default; the
embedding is a total function of the vendor behaviour, so no input raises. -/
theorem dashboard_uninitialized_spec (user_id : String) (vendor : Vendor)
    (h : vendor.initialized = false) :
    getIntegrationDashboard user_id vendor =
      { user_id := user_id, composio_health := false, integrations := [] } ∧
    (getIntegrationDashboard user_id vendor).user_id = user_id ∧
    (getIntegrationDashboard user_id vendor).composio_health = false ∧
    (getIntegrationDashboard user_id vendor).integrations = [] ∧
    (getIntegrationDashboard user_id vendor).total_integrations = 0 ∧
    (getIntegrationDashboard user_id vendor).connected_integrations = 0 ∧
    (getIntegrationDashboard user_id vendor).total_connections = 0 ∧
    (getIntegrationDashboard user_id vendor).healthy_connections = 0 ∧
    (getIntegrationDashboard user_id vendor).categories = [] ∧
    (getIntegrationDashboard user_id vendor).popular_integrations = [] := by
  have hd : getIntegrationDashboard user_id vendor =
      { user_id := user_id, composio_health := false, integrations := [] } := by
    simp [getIntegrationDashboard, h]
  refine ⟨hd, ?_, ?_, ?_, ?_, ?_, ?_, ?_, ?_, ?_⟩ <;> rw [hd]

/-- Witness for C4: the uninitialized vendor at user id `"u1"`. -/
theorem dashboard_uninitialized_spec_witness :
    getIntegrationDashboard "u1" vendorDown =
      { user_id := "u1", composio_health := false, integrations := [] } ∧
    (getIntegrationDashboard "u1" vendorDown).user_id = "u1" ∧
    (getIntegrationDashboard "u1" vendorDown).composio_health = false ∧
    (getIntegrationDashboard "u1" vendorDown).integrations = [] ∧
    (getIntegrationDashboard "u1" vendorDown).total_integrations = 0 ∧
    (getIntegrationDashboard "u1" vendorDown).connected_integrations = 0 ∧
    (getIntegrationDashboard "u1" vendorDown).total_connections = 0 ∧
    (getIntegrationDashboard "u1" vendorDown).healthy_connections = 0 ∧
    (getIntegrationDashboard "u1" vendorDown).categories = [] ∧
    (getIntegrationDashboard "u1" vendorDown).popular_integrations = [] :=
  dashboard_uninitialized_spec "u1" vendorDown rfl

theorem buildIntegrationConnections_status_ne_disabled (l : List ConnRecord) :
    ∀ c ∈ buildIntegrationConnections l, c.status ≠ IntegrationStatus.disabled := by
  intro c hc
  simp only [buildIntegrationConnections, List.mem_map] at hc
  obtain ⟨conn, -, rfl⟩ := hc
  simpa using parseConnectionStatus_ne_disabled conn.status

/-- C1 (amended): every summary of every dashboard satisfies
`total_connections = active + inactive + error + pending`, where the pending
count is over the summary's own connection list; the originally claimed
three-way identity holds exactly when that pending count is zero. -/
theorem summary_counts_spec (user_id : String) (vendor : Vendor)
    (s : IntegrationSummary)
    (hs : s ∈ (getIntegrationDashboard user_id vendor).integrations) :
    s.total_connections =
      s.active_connections + s.inactive_connections + s.error_connections +
        s.connections.countP (fun c => c.status == IntegrationStatus.pending) := by
  by_cases hv : vendor.initialized
  · simp only [getIntegrationDashboard, hv, Bool.not_true, Bool.false_eq_true, if_false,
      List.mem_insertionSort, List.mem_filterMap] at hs
    obtain ⟨toolkit, -, htk⟩ := hs
    by_cases hslug : toolkit.slug = ""
    · rw [if_pos hslug] at htk
      exact absurd htk (by simp)
    · rw [if_neg hslug] at htk
      injection htk with htk
      subst htk
      dsimp only [buildIntegrationSummary]
      exact length_eq_status_counts _ (buildIntegrationConnections_status_ne_disabled _)
  · simp [getIntegrationDashboard, hv] at hs

/-- Counterexample for C1 as stated: in the dashboard built from
`vendorPending`, the slack summary has `total_connections = 1` while
`active + inactive + error = 0`. -/
theorem summary_counts_counterexample :
    ¬ ∀ s ∈ (getIntegrationDashboard "u1" vendorPending).integrations,
      s.total_connections =
        s.active_connections + s.inactive_connections + s.error_connections := by
  decide

/-- Witness for C1 (amended) at the summary of the `vendorPending` dashboard. -/
theorem summary_counts_spec_witness :
    pendingSummary.total_connections =
      pendingSummary.active_connections + pendingSummary.inactive_connections +
        pendingSummary.error_connections +
        pendingSummary.connections.countP (fun c => c.status == IntegrationStatus.pending) :=
  summary_counts_spec "u1" vendorPending pendingSummary (by decide)

/-! Lemmas characterizing the connection grouping dict. -/

theorem dictGet_cons_eq (l0 : List ConnRecord) (m : GroupDict) (key : String) :
    dictGet ((key, l0) :: m) key = l0 := by
  simp [dictGet]

theorem dictGet_cons_ne {k0 key : String} (l0 : List ConnRecord) (m : GroupDict)
    (h : k0 ≠ key) : dictGet ((k0, l0) :: m) key = dictGet m key := by
  simp [dictGet, h]

theorem dictGet_insertGrouped (m : GroupDict) (k key : String) (c : ConnRecord) :
    dictGet (insertGrouped m k c) key =
      dictGet m key ++ (if k = key then [c] else []) := by
  induction m with
  | nil =>
    by_cases hk : k = key
    · subst hk
      simp [insertGrouped, dictGet]
    · simp [insertGrouped, dictGet, hk]
  | cons p m ih =>
    obtain ⟨k0, l0⟩ := p
    simp only [insertGrouped]
    by_cases h0 : k0 = k
    · rw [if_pos h0]
      subst h0
      by_cases hkey : k0 = key
      · subst hkey
        rw [dictGet_cons_eq, dictGet_cons_eq, if_pos rfl]
      · rw [dictGet_cons_ne _ _ hkey, dictGet_cons_ne _ _ hkey, if_neg hkey,
          List.append_nil]
    · rw [if_neg h0]
      by_cases hkey : k0 = key
      · subst hkey
        have h0' : ¬ k = k0 := fun h => h0 h.symm
        rw [dictGet_cons_eq, dictGet_cons_eq, if_neg h0', List.append_nil]
      · rw [dictGet_cons_ne _ _ hkey, dictGet_cons_ne _ _ hkey, ih]

theorem dictGet_foldl_insertGrouped :
    ∀ (conns : List ConnRecord) (m : GroupDict) (key : String),
      dictGet (conns.foldl (fun m conn => insertGrouped m (pyLower conn.provider) conn) m) key =
        dictGet m key ++ conns.filter (fun c => pyLower c.provider == key)
  | [], m, key => by simp
  | c :: conns, m, key => by
    simp only [List.foldl_cons, List.filter_cons]
    rw [dictGet_foldl_insertGrouped conns _ key, dictGet_insertGrouped]
    by_cases h : pyLower c.provider = key
    · simp [h, List.append_assoc]
    · simp [h]

theorem dictGet_groupConnections (connections : List ConnRecord) (key : String) :
    dictGet (groupConnections connections) key =
      connections.filter (fun c => pyLower c.provider == key) := by
  have h := dictGet_foldl_insertGrouped connections [] key
  simpa [groupConnections, dictGet] using h

/-- C5: for any non-empty key, the bucket of the grouping step is exactly the
connections whose case-folded provider equals the key, in vendor order (an
order-preserving sublist of the input); every connection with a non-empty
provider sits in the bucket of its case-folded provider; and a connection
with an empty or missing provider is in no such bucket. -/
theorem group_connections_spec (connections : List ConnRecord) (key : String)
    (hkey : key ≠ "") :
    (dictGet (groupConnections connections) key =
      connections.filter (fun c => pyLower c.provider == key)) ∧
    (dictGet (groupConnections connections) key).Sublist connections ∧
    (∀ c ∈ connections, c.provider ≠ "" →
      c ∈ dictGet (groupConnections connections) (pyLower c.provider)) ∧
    (∀ c ∈ connections, c.provider = "" →
      c ∉ dictGet (groupConnections connections) key) := by
  refine ⟨dictGet_groupConnections connections key, ?_, ?_, ?_⟩
  · rw [dictGet_groupConnections]
    exact List.filter_sublist connections
  · intro c hc hne
    rw [dictGet_groupConnections]
    exact List.mem_filter.mpr ⟨hc, by simp⟩
  · intro c hc hprov
    rw [dictGet_groupConnections]
    intro hmem
    have hfilt := (List.mem_filter.mp hmem).2
    rw [hprov] at hfilt
    simp only [pyLower, beq_iff_eq] at hfilt
    exact hkey ((by simpa using hfilt : ("" : String) = key)).symm

/-- Witness for C5 at `sampleConns` and the key `"slack"`. -/
theorem group_connections_spec_witness :
    (dictGet (groupConnections sampleConns) "slack" =
      sampleConns.filter (fun c => pyLower c.provider == "slack")) ∧
    (dictGet (groupConnections sampleConns) "slack").Sublist sampleConns ∧
    (∀ c ∈ sampleConns, c.provider ≠ "" →
      c ∈ dictGet (groupConnections sampleConns) (pyLower c.provider)) ∧
    (∀ c ∈ sampleConns, c.provider = "" →
      c ∉ dictGet (groupConnections sampleConns) "slack") :=
  group_connections_spec sampleConns "slack" (by decide)

/-! Lemmas about the dashboard sort. -/

theorem insertionSort_popular_eq (l : List IntegrationSummary) :
    List.insertionSort totalDescLE
      ((List.insertionSort summaryKeyLE l).filter (fun i => decide (0 < i.total_connections))) =
      (List.insertionSort summaryKeyLE l).filter (fun i => decide (0 < i.total_connections)) := by
  haveI : IsTotal IntegrationSummary summaryKeyLE := ⟨summaryKeyLE_total⟩
  haveI : IsTrans IntegrationSummary summaryKeyLE := ⟨fun _ _ _ => summaryKeyLE_trans⟩
  exact List.Sorted.insertionSort_eq
    (((List.sorted_insertionSort summaryKeyLE l).filter _).imp
      (fun h => summaryKeyLE_imp_totalDescLE h))

/-- C3: in every dashboard, the integration list is pairwise ordered by the
sort key `(-total_connections, display_name)` ascending;
`connected_integrations` equals the number of integrations with at least one
connection; and `popular_integrations` is exactly the providers of the first
five integrations with a connection, which are in descending
`total_connections` order. -/
theorem dashboard_order_spec (user_id : String) (vendor : Vendor) :
    (getIntegrationDashboard user_id vendor).integrations.Pairwise (fun a b =>
      b.total_connections < a.total_connections ∨
        (a.total_connections = b.total_connections ∧
          a.display_name ≤ b.display_name)) ∧
    (getIntegrationDashboard user_id vendor).connected_integrations =
      ((getIntegrationDashboard user_id vendor).integrations.filter
        (fun i => decide (0 < i.total_connections))).length ∧
    (getIntegrationDashboard user_id vendor).popular_integrations =
      (((getIntegrationDashboard user_id vendor).integrations.filter
        (fun i => decide (0 < i.total_connections))).take 5).map (fun i => i.provider) := by
  haveI : IsTotal IntegrationSummary summaryKeyLE := ⟨summaryKeyLE_total⟩
  haveI : IsTrans IntegrationSummary summaryKeyLE := ⟨fun _ _ _ => summaryKeyLE_trans⟩
  by_cases hv : vendor.initialized
  · simp only [getIntegrationDashboard, hv, Bool.not_true, Bool.false_eq_true, if_false]
    refine ⟨?_, ?_, ?_⟩
    · refine (List.sorted_insertionSort summaryKeyLE _).imp (fun h => ?_)
      rcases h with h | ⟨he, hs⟩
      · exact Or.inl h
      · exact Or.inr ⟨he, (strLe_iff_le _ _).mp hs⟩
    · exact List.countP_eq_length_filter _ _
    · rw [insertionSort_popular_eq]
  · simp [getIntegrationDashboard, hv]

/-! Lemmas characterizing the category stats dict. -/

theorem catLookup_cons_eq (st : CatStat) (m : CatDict) (key : String) :
    catLookup ((key, st) :: m) key = some st := by
  simp [catLookup]

theorem catLookup_cons_ne {k0 key : String} (st : CatStat) (m : CatDict)
    (h : k0 ≠ key) : catLookup ((k0, st) :: m) key = catLookup m key := by
  simp [catLookup, h]

theorem catLookup_upsertCat (m : CatDict) (category provider : String) (conn : Bool)
    (key : String) :
    catLookup (upsertCat m category provider conn) key =
      if category = key then
        some { services := insertUnique (optServices (catLookup m key)) provider
               connected := optConnected (catLookup m key) + (if conn then 1 else 0) }
      else catLookup m key := by
  induction m with
  | nil =>
    by_cases hk : category = key
    · subst hk
      simp [upsertCat, catLookup, optServices, optConnected, insertUnique]
    · simp [upsertCat, catLookup, hk]
  | cons p m ih =>
    obtain ⟨k0, st0⟩ := p
    simp only [upsertCat]
    by_cases h0 : k0 = category
    · rw [if_pos h0]
      subst h0
      by_cases hkey : k0 = key
      · subst hkey
        rw [catLookup_cons_eq, catLookup_cons_eq, if_pos rfl]
        simp [optServices, optConnected]
      · rw [catLookup_cons_ne _ _ hkey, catLookup_cons_ne _ _ hkey, if_neg hkey]
    · rw [if_neg h0]
      by_cases hkey : k0 = key
      · subst hkey
        have h0' : ¬ category = k0 := fun h => h0 h.symm
        rw [catLookup_cons_eq, catLookup_cons_eq, if_neg h0']
      · rw [catLookup_cons_ne _ _ hkey, catLookup_cons_ne _ _ hkey, ih]

theorem pairsServices_cons_eq (acc : List String) (prov : String) (conn : Bool)
    (pairs : List (String × String × Bool)) (key : String) :
    pairsServices acc ((key, prov, conn) :: pairs) key =
      pairsServices (insertUnique acc prov) pairs key := by
  simp [pairsServices]

theorem pairsServices_cons_ne {cat key : String} (acc : List String) (prov : String)
    (conn : Bool) (pairs : List (String × String × Bool)) (h : cat ≠ key) :
    pairsServices acc ((cat, prov, conn) :: pairs) key = pairsServices acc pairs key := by
  simp [pairsServices, h]

theorem pairsConnected_cons_eq (prov : String) (conn : Bool)
    (pairs : List (String × String × Bool)) (key : String) :
    pairsConnected ((key, prov, conn) :: pairs) key =
      pairsConnected pairs key + (if conn then 1 else 0) := by
  simp [pairsConnected, List.countP_cons]

theorem pairsConnected_cons_ne {cat key : String} (prov : String) (conn : Bool)
    (pairs : List (String × String × Bool)) (h : cat ≠ key) :
    pairsConnected ((cat, prov, conn) :: pairs) key = pairsConnected pairs key := by
  simp [pairsConnected, h]

theorem catLookup_foldl_upsertCat :
    ∀ (pairs : List (String × String × Bool)) (m : CatDict) (key : String),
      catLookup (pairs.foldl (fun m2 p => upsertCat m2 p.1 p.2.1 p.2.2) m) key =
        if (catLookup m key).isSome = false ∧
            pairs.filter (fun p => p.1 == key) = [] then none
        else some { services := pairsServices (optServices (catLookup m key)) pairs key
                    connected := optConnected (catLookup m key) + pairsConnected pairs key }
  | [], m, key => by
    cases h : catLookup m key with
    | none => simp [h, pairsServices, pairsConnected, optServices, optConnected]
    | some st => simp [h, pairsServices, pairsConnected, optServices, optConnected]
  | p :: pairs, m, key => by
    obtain ⟨cat, prov, conn⟩ := p
    by_cases hc : cat = key
    · subst hc
      simp only [List.foldl_cons]
      rw [catLookup_foldl_upsertCat pairs _ cat, catLookup_upsertCat, if_pos rfl]
      rw [pairsServices_cons_eq, pairsConnected_cons_eq]
      have hfil : List.filter (fun p => p.1 == cat) ((cat, prov, conn) :: pairs) ≠ [] := by
        simp [List.filter_cons]
      simp only [Option.isSome_some, Bool.true_eq_false, false_and, if_false,
        optServices, optConnected, hfil, and_false, ite_false]
      simp only [Option.some.injEq, CatStat.mk.injEq]
      exact ⟨trivial, by omega⟩
    · simp only [List.foldl_cons]
      rw [catLookup_foldl_upsertCat pairs _ key, catLookup_upsertCat, if_neg hc]
      rw [pairsServices_cons_ne _ _ _ _ hc, pairsConnected_cons_ne _ _ _ hc]
      have hfil : List.filter (fun p => p.1 == key) ((cat, prov, conn) :: pairs) =
          List.filter (fun p => p.1 == key) pairs := by
        simp [List.filter_cons, hc]
      rw [hfil]

theorem mem_upsertCat_keys {q : String × CatStat} :
    ∀ {m : CatDict} {category provider : String} {conn : Bool},
      q ∈ upsertCat m category provider conn → q.1 ∈ m.map (fun p => p.1) ∨ q.1 = category := by
  intro m
  induction m with
  | nil =>
    intro category provider conn hq
    simp only [upsertCat, List.mem_singleton] at hq
    subst hq
    exact Or.inr rfl
  | cons p m ih =>
    intro category provider conn hq
    obtain ⟨k0, st0⟩ := p
    simp only [upsertCat] at hq
    by_cases h0 : k0 = category
    · rw [if_pos h0] at hq
      rcases List.mem_cons.mp hq with heq | hmem
      · subst heq
        simp
      · refine Or.inl ?_
        simp only [List.map_cons, List.mem_cons]
        exact Or.inr (List.mem_map.mpr ⟨q, hmem, rfl⟩)
    · rw [if_neg h0] at hq
      rcases List.mem_cons.mp hq with heq | hmem
      · subst heq
        simp
      · rcases ih hmem with h | h
        · exact Or.inl (by simp only [List.map_cons, List.mem_cons]; exact Or.inr h)
        · exact Or.inr h

theorem upsertCat_keys_nodup {m : CatDict} (category provider : String) (conn : Bool)
    (h : m.Pairwise (fun p q => p.1 ≠ q.1)) :
    (upsertCat m category provider conn).Pairwise (fun p q => p.1 ≠ q.1) := by
  induction m with
  | nil => simp [upsertCat]
  | cons p m ih =>
    obtain ⟨k0, st0⟩ := p
    obtain ⟨hhead, htail⟩ := List.pairwise_cons.mp h
    simp only [upsertCat]
    by_cases h0 : k0 = category
    · rw [if_pos h0]
      exact List.pairwise_cons.mpr ⟨hhead, htail⟩
    · rw [if_neg h0]
      refine List.pairwise_cons.mpr ⟨?_, ih htail⟩
      intro q hq
      rcases mem_upsertCat_keys hq with hk | hk
      · obtain ⟨p', hp', hpk⟩ := List.mem_map.mp hk
        exact hpk ▸ hhead p' hp'
      · rw [hk]
        exact h0

theorem foldl_upsertCat_keys_nodup (pairs : List (String × String × Bool)) (m : CatDict)
    (h : m.Pairwise (fun p q => p.1 ≠ q.1)) :
    (pairs.foldl (fun m2 p => upsertCat m2 p.1 p.2.1 p.2.2) m).Pairwise
      (fun p q => p.1 ≠ q.1) := by
  induction pairs generalizing m with
  | nil => exact h
  | cons p pairs ih => exact ih _ (upsertCat_keys_nodup _ _ _ h)

theorem buildCategoryStats_eq_foldl_pairs (integrations : List IntegrationSummary) :
    buildCategoryStats integrations =
      (catPairs integrations).foldl (fun m2 p => upsertCat m2 p.1 p.2.1 p.2.2) [] := by
  suffices h : ∀ (l : List IntegrationSummary) (m : CatDict),
      l.foldl catStep m = (catPairs l).foldl (fun m2 p => upsertCat m2 p.1 p.2.1 p.2.2) m from
    h integrations []
  intro l
  induction l with
  | nil =>
    intro m
    rfl
  | cons i l ih =>
    intro m
    simp only [List.foldl_cons, catPairs, List.flatMap_cons, List.foldl_append]
    rw [ih]
    congr 1
    simp [catStep, List.foldl_map]

theorem buildCategoryStats_keys_nodup (l : List IntegrationSummary) :
    (buildCategoryStats l).Pairwise (fun p q => p.1 ≠ q.1) := by
  rw [buildCategoryStats_eq_foldl_pairs]
  exact foldl_upsertCat_keys_nodup _ _ List.Pairwise.nil

theorem catLookup_of_mem {m : CatDict} (hnd : m.Pairwise (fun p q => p.1 ≠ q.1))
    {k : String} {st : CatStat} (hm : (k, st) ∈ m) : catLookup m k = some st := by
  induction m with
  | nil => cases hm
  | cons p m ih =>
    obtain ⟨k0, st0⟩ := p
    obtain ⟨hhead, htail⟩ := List.pairwise_cons.mp hnd
    rcases List.mem_cons.mp hm with heq | hmem
    · injection heq with h1 h2
      subst h1
      subst h2
      exact catLookup_cons_eq _ _ _
    · have hne : k0 ≠ k := by simpa using hhead (k, st) hmem
      rw [catLookup_cons_ne _ _ hne]
      exact ih htail hmem

theorem exists_mem_of_catLookup {m : CatDict} {key : String} {st : CatStat}
    (h : catLookup m key = some st) : (key, st) ∈ m := by
  unfold catLookup at h
  cases hf : m.find? (fun p => p.1 == key) with
  | none =>
    rw [hf] at h
    cases h
  | some p =>
    rw [hf] at h
    injection h with h
    obtain ⟨pk, pst⟩ := p
    have hp : pk = key := by simpa using List.find?_some hf
    have hpm := List.mem_of_find?_eq_some hf
    subst hp
    subst h
    exact hpm

theorem catLookup_buildCategoryStats (l : List IntegrationSummary) (key : String) :
    catLookup (buildCategoryStats l) key =
      if (catPairs l).filter (fun p => p.1 == key) = [] then none
      else some { services := pairsServices [] (catPairs l) key
                  connected := pairsConnected (catPairs l) key } := by
  rw [buildCategoryStats_eq_foldl_pairs, catLookup_foldl_upsertCat]
  simp only [catLookup, List.find?_nil, Option.isSome_none, optServices, optConnected,
    Nat.zero_add]
  split_ifs <;> simp_all

theorem pairsConnected_append (l1 l2 : List (String × String × Bool)) (key : String) :
    pairsConnected (l1 ++ l2) key = pairsConnected l1 key + pairsConnected l2 key := by
  simp [pairsConnected, List.filter_append, List.countP_append]

theorem pairsConnected_map (cats : List String) (prov : String) (conn : Bool) (key : String) :
    pairsConnected (cats.map (fun category => (category, prov, conn))) key =
      if conn then cats.count key else 0 := by
  induction cats with
  | nil => cases conn <;> rfl
  | cons c cats ih =>
    by_cases hck : c = key
    · subst hck
      rw [List.map_cons, pairsConnected_cons_eq, ih, List.count_cons_self]
      cases conn <;> simp
    · rw [List.map_cons, pairsConnected_cons_ne _ _ _ hck, ih,
        List.count_cons_of_ne (Ne.symm hck)]

theorem pairsConnected_catPairs (l : List IntegrationSummary) (key : String) :
    pairsConnected (catPairs l) key =
      ((l.filter (fun i => decide (0 < i.total_connections))).map
        (fun i => i.categories.count key)).sum := by
  induction l with
  | nil => rfl
  | cons i l ih =>
    simp only [catPairs] at ih ⊢
    rw [List.flatMap_cons, pairsConnected_append, ih, pairsConnected_map, List.filter_cons]
    by_cases hpos : 0 < i.total_connections
    · simp [hpos]
    · simp [hpos]

theorem insertUnique_nodup {l : List String} (h : l.Nodup) (a : String) :
    (insertUnique l a).Nodup := by
  unfold insertUnique
  split_ifs with ha
  · exact h
  · simp [List.nodup_append, h, ha]

theorem toFinset_insertUnique (l : List String) (a : String) :
    (insertUnique l a).toFinset = insert a l.toFinset := by
  unfold insertUnique
  split_ifs with ha
  · rw [Finset.insert_eq_self.mpr (List.mem_toFinset.mpr ha)]
  · rw [List.toFinset_append]
    simp [Finset.insert_eq, Finset.union_comm]

theorem foldl_insertUnique_nodup (provs : List String) (acc : List String) (h : acc.Nodup) :
    (provs.foldl insertUnique acc).Nodup := by
  induction provs generalizing acc with
  | nil => exact h
  | cons p provs ih => exact ih _ (insertUnique_nodup h p)

theorem toFinset_foldl_insertUnique (provs : List String) (acc : List String) :
    (provs.foldl insertUnique acc).toFinset = acc.toFinset ∪ provs.toFinset := by
  induction provs generalizing acc with
  | nil => simp
  | cons p provs ih =>
    rw [List.foldl_cons, ih, toFinset_insertUnique, List.toFinset_cons]
    ext x
    simp

theorem length_pairsServices (pairs : List (String × String × Bool)) (key : String) :
    (pairsServices [] pairs key).length =
      (((pairs.filter (fun p => p.1 == key)).map (fun p => p.2.1)).toFinset).card := by
  unfold pairsServices
  rw [← List.toFinset_card_of_nodup (foldl_insertUnique_nodup _ _ List.nodup_nil),
    toFinset_foldl_insertUnique]
  simp

theorem catPairs_providers_toFinset (l : List IntegrationSummary) (key : String) :
    (((catPairs l).filter (fun p => p.1 == key)).map (fun p => p.2.1)).toFinset =
      ((l.filter (fun i => decide (key ∈ i.categories))).map
        (fun i => i.provider)).toFinset := by
  ext x
  simp only [List.mem_toFinset, List.mem_map, List.mem_filter, catPairs, List.mem_flatMap,
    beq_iff_eq, decide_eq_true_eq]
  constructor
  · rintro ⟨⟨cat, prov, conn⟩, ⟨⟨i, hi, hmem⟩, hkey⟩, rfl⟩
    simp only at hkey
    obtain ⟨c, hc, heq⟩ := hmem
    injection heq with h1 h23
    injection h23 with h2 h3
    subst h1
    subst hkey
    exact ⟨i, ⟨hi, hc⟩, h2⟩
  · rintro ⟨i, ⟨hi, hkey⟩, rfl⟩
    exact ⟨(key, i.provider, decide (0 < i.total_connections)),
      ⟨⟨i, hi, key, hkey, rfl⟩, rfl⟩, rfl⟩

theorem statsFromDashboard_entry {d : IntegrationDashboard} {cat : IntegrationCategory}
    (hcat : cat ∈ (statsFromDashboard d).categories) :
    ∃ st : CatStat,
      catLookup (buildCategoryStats d.integrations) cat.display_name = some st ∧
      cat.connected_count = st.connected ∧
      cat.service_count = st.services.length := by
  simp only [statsFromDashboard, List.mem_insertionSort, List.mem_map] at hcat
  obtain ⟨⟨k, st⟩, hmem, rfl⟩ := hcat
  exact ⟨st, catLookup_of_mem (buildCategoryStats_keys_nodup _) hmem, rfl, rfl⟩

/-- C9 (amended): the stats view is a pure function of the assembled
dashboard; every category listed by some integration has a bucket; per
bucket, `service_count` is the number of distinct provider slugs among the
integrations listing that category, and `connected_count` is the number of
occurrences of the category in the category lists of the integrations with
at least one connection — equal to the number of connected member
integrations whenever no integration repeats a category; the buckets are
sorted by descending `connected_count`. -/
theorem stats_categories_spec (user_id : String) (vendor : Vendor) :
    getIntegrationStats user_id vendor =
      statsFromDashboard (getIntegrationDashboard user_id vendor) ∧
    (∀ cat ∈ (getIntegrationStats user_id vendor).categories,
      cat.connected_count =
        (((getIntegrationDashboard user_id vendor).integrations.filter
            (fun i => decide (0 < i.total_connections))).map
          (fun i => i.categories.count cat.display_name)).sum) ∧
    (∀ cat ∈ (getIntegrationStats user_id vendor).categories,
      cat.service_count =
        ((((getIntegrationDashboard user_id vendor).integrations.filter
            (fun i => decide (cat.display_name ∈ i.categories))).map
          (fun i => i.provider)).toFinset).card) ∧
    (∀ name, (∃ i ∈ (getIntegrationDashboard user_id vendor).integrations,
        name ∈ i.categories) →
      (∃ cat ∈ (getIntegrationStats user_id vendor).categories,
        cat.display_name = name)) ∧
    (getIntegrationStats user_id vendor).categories.Pairwise connectedDescLE := by
  refine ⟨rfl, ?_, ?_, ?_, ?_⟩
  · intro cat hcat
    obtain ⟨st, hlk, hconn, -⟩ := statsFromDashboard_entry hcat
    rw [catLookup_buildCategoryStats] at hlk
    by_cases hfil : (catPairs (getIntegrationDashboard user_id vendor).integrations).filter
        (fun p => p.1 == cat.display_name) = []
    · rw [if_pos hfil] at hlk
      cases hlk
    · rw [if_neg hfil] at hlk
      injection hlk with hlk
      subst hlk
      exact hconn.trans (pairsConnected_catPairs _ _)
  · intro cat hcat
    obtain ⟨st, hlk, -, hserv⟩ := statsFromDashboard_entry hcat
    rw [catLookup_buildCategoryStats] at hlk
    by_cases hfil : (catPairs (getIntegrationDashboard user_id vendor).integrations).filter
        (fun p => p.1 == cat.display_name) = []
    · rw [if_pos hfil] at hlk
      cases hlk
    · rw [if_neg hfil] at hlk
      injection hlk with hlk
      subst hlk
      exact hserv.trans ((length_pairsServices _ _).trans
        (by rw [catPairs_providers_toFinset]))
  · rintro name ⟨i, hi, hname⟩
    have hpair : (name, i.provider, decide (0 < i.total_connections)) ∈
        catPairs (getIntegrationDashboard user_id vendor).integrations := by
      simp only [catPairs, List.mem_flatMap]
      exact ⟨i, hi, List.mem_map.mpr ⟨name, hname, rfl⟩⟩
    have hfil : (catPairs (getIntegrationDashboard user_id vendor).integrations).filter
        (fun p => p.1 == name) ≠ [] := by
      intro hempty
      have hmem2 : (name, i.provider, decide (0 < i.total_connections)) ∈
          (catPairs (getIntegrationDashboard user_id vendor).integrations).filter
            (fun p => p.1 == name) :=
        List.mem_filter.mpr ⟨hpair, by simp⟩
      rw [hempty] at hmem2
      cases hmem2
    have hlk := catLookup_buildCategoryStats
      (getIntegrationDashboard user_id vendor).integrations name
    rw [if_neg hfil] at hlk
    have hmem := exists_mem_of_catLookup hlk
    exact ⟨{ name := replaceSpaces (pyLower name)
             display_name := name
             service_count := (pairsServices []
               (catPairs (getIntegrationDashboard user_id vendor).integrations) name).length
             connected_count := pairsConnected
               (catPairs (getIntegrationDashboard user_id vendor).integrations) name
             services := pairsServices []
               (catPairs (getIntegrationDashboard user_id vendor).integrations) name },
      by
        simp only [getIntegrationStats, statsFromDashboard, List.mem_insertionSort,
          List.mem_map]
        exact ⟨(name, _), hmem, rfl⟩,
      rfl⟩
  · haveI : IsTotal IntegrationCategory connectedDescLE :=
      ⟨fun a b => Nat.le_total b.connected_count a.connected_count⟩
    haveI : IsTrans IntegrationCategory connectedDescLE :=
      ⟨fun _ _ _ h1 h2 => le_trans h2 h1⟩
    exact List.sorted_insertionSort connectedDescLE _

/-- Counterexample for C9 as stated: with `vendorDupCat` the category `"X"`
is listed twice by the single connected integration, so its
`connected_count` is 2 while only one member integration has a connection. -/
theorem stats_categories_counterexample :
    ¬ ∀ cat ∈ (getIntegrationStats "u1" vendorDupCat).categories,
      cat.connected_count =
        ((getIntegrationDashboard "u1" vendorDupCat).integrations.filter
          (fun i => decide (cat.display_name ∈ i.categories) &&
            decide (0 < i.total_connections))).length := by
  decide

/-- C10: the stats totals equal the corresponding dashboard fields, and
`failed_connections` is the sum of `error_connections` over the dashboard's
integrations. -/
theorem stats_totals_spec (user_id : String) (vendor : Vendor) :
    (getIntegrationStats user_id vendor).total_available =
      (getIntegrationDashboard user_id vendor).total_integrations ∧
    (getIntegrationStats user_id vendor).total_connected =
      (getIntegrationDashboard user_id vendor).connected_integrations ∧
    (getIntegrationStats user_id vendor).total_connections =
      (getIntegrationDashboard user_id vendor).total_connections ∧
    (getIntegrationStats user_id vendor).active_connections =
      (getIntegrationDashboard user_id vendor).healthy_connections ∧
    (getIntegrationStats user_id vendor).failed_connections =
      ((getIntegrationDashboard user_id vendor).integrations.map
        (fun i => i.error_connections)).sum :=
  ⟨rfl, rfl, rfl, rfl, rfl⟩

end Kronos
